import Mathlib

/-!
Verification of the EverMemOS persistence utilities.

This file shallowly embeds the repository's four Python modules in Lean 4:

* `core/oxm/mongo/document_base_with_soft_delete.py` — the soft-delete
  document mixin (`DocumentBaseWithSoftDelete`);
* `common_utils/datetime_utils.py` — timezone-aware datetime helpers;
* `infra_layer/adapters/out/event/memory_request_log_mongo_listener.py` —
  the request-log event listener;
* `service/memcell_delete_service.py` — the MemCell deletion service.

Modelling conventions, chosen once and used throughout:

* MongoDB / BSON values that the code stores or filters on are the
  inductive `MVal`; documents of the mixin are the structure `SDoc`;
  the store itself is a `List SDoc` and the code's pymongo calls
  (`update_one`, `update_many`, `delete_one`, `delete_many`) become
  `StoreOp` values interpreted by `runStoreOp`.
* Times are timezone-aware instants at microsecond resolution, so the
  mixin's `datetime` values are plain `Nat` microseconds and
  `int(now.timestamp() * 1000000)` is the identity on them.
* Python's salted string hash is an arbitrary function parameter
  `pyHash : String → Int`; `abs(hash(str(oid)))` is `(pyHash s).natAbs`.
* Document ids are `Option String` (a Mongo ObjectId rendered as its
  24-hex-character string; an ObjectId object is always truthy, a missing
  id is `None`, so `if self.id:` is `Option.isSome`).
-/

namespace EverMem

/-- BSON-ish values appearing in the embedded filters and update documents. -/
inductive MVal where
  | mnull
  | mint (n : Int)
  | mstr (s : String)
  | mtime (t : Nat)
  | moid (s : String)
deriving DecidableEq, Repr

/-- A single filter condition: pymongo's implicit equality, or `$ne`. -/
inductive MCond where
  | meq (v : MVal)
  | mne (v : MVal)
deriving DecidableEq, Repr

/-- A Mongo filter document: ordered association list of field conditions. -/
abbrev MFilter := List (String × MCond)

/-- A Mongo `$set` document: ordered association list of field values. -/
abbrev MSet := List (String × MVal)

/-- Does the (dict-modelled) association list contain the key? -/
def hasKey (xs : List (String × MVal)) (k : String) : Bool :=
  xs.any (fun p => p.1 == k)

/-- Key membership for filter documents. -/
def hasKeyC (xs : MFilter) (k : String) : Bool :=
  xs.any (fun p => p.1 == k)

/-- `dict.get`-style lookup on a filter document. -/
def lookupC (xs : MFilter) (k : String) : Option MCond :=
  (xs.find? (fun p => p.1 == k)).map (fun p => p.2)

/-- `dict`-style lookup of a stored value, `mnull` when the field is absent
(a missing Mongo field compares equal to `null`). -/
def lookupVal (xs : List (String × MVal)) (k : String) : MVal :=
  match xs.find? (fun p => p.1 == k) with
  | some p => p.2
  | none => .mnull

/-- The documents managed by `DocumentBaseWithSoftDelete`: the three
soft-delete fields of the mixin plus the id and the business fields. -/
structure SDoc where
  id : Option String
  deleted_at : Option Nat
  deleted_by : Option String
  deleted_id : Int
  extra : List (String × MVal)
deriving DecidableEq, Repr

/-- The store operations the mixin issues through pymongo. -/
inductive StoreOp where
  | updateOne (filt : MFilter) (setDoc : MSet)
  | updateMany (filt : MFilter) (setDoc : MSet)
  | deleteOne (filt : MFilter)
  | deleteMany (filt : MFilter)
deriving DecidableEq, Repr

/-- The filter a store operation matches against. -/
def StoreOp.filterOf : StoreOp → MFilter
  | .updateOne f _ => f
  | .updateMany f _ => f
  | .deleteOne f => f
  | .deleteMany f => f

/-- The `$set` document of a store operation (empty for the delete ops). -/
def StoreOp.setDocOf : StoreOp → MSet
  | .updateOne _ u => u
  | .updateMany _ u => u
  | .deleteOne _ => []
  | .deleteMany _ => []

/-- The Mongo value of an optional ObjectId (`self.id`). -/
def idVal : Option String → MVal
  | none => .mnull
  | some s => .moid s

/-- The Mongo value of an optional string (`deleted_by`). -/
def optStr : Option String → MVal
  | none => .mnull
  | some s => .mstr s

/-- The Mongo value of an optional timestamp (`deleted_at`). -/
def optTime : Option Nat → MVal
  | none => .mnull
  | some t => .mtime t

/-- The stored value of a field of a document, as a Mongo query sees it. -/
def fieldValue (d : SDoc) (k : String) : MVal :=
  if k = "_id" then idVal d.id
  else if k = "deleted_at" then optTime d.deleted_at
  else if k = "deleted_by" then optStr d.deleted_by
  else if k = "deleted_id" then .mint d.deleted_id
  else lookupVal d.extra k

/-- Does a stored field value satisfy one filter condition? -/
def condMatch (c : MCond) (v : MVal) : Bool :=
  match c with
  | .meq w => v == w
  | .mne w => v != w

/-- Does a document match a filter document (conjunction of conditions)? -/
def docMatches (d : SDoc) (f : MFilter) : Bool :=
  f.all (fun p => condMatch p.2 (fieldValue d p.1))

/-- Apply one `$set` entry to a document. -/
def setField (d : SDoc) (k : String) (v : MVal) : SDoc :=
  if k = "deleted_at" then
    { d with deleted_at := match v with | .mtime t => some t | _ => none }
  else if k = "deleted_by" then
    { d with deleted_by := match v with | .mstr s => some s | _ => none }
  else if k = "deleted_id" then
    { d with deleted_id := match v with | .mint n => n | _ => d.deleted_id }
  else if k = "_id" then
    { d with id := match v with | .moid s => some s | _ => d.id }
  else
    { d with extra :=
        if hasKey d.extra k then
          d.extra.map (fun p => if p.1 == k then (p.1, v) else p)
        else d.extra ++ [(k, v)] }

/-- Apply a whole `$set` document, left to right. -/
def applySet (d : SDoc) (u : MSet) : SDoc :=
  u.foldl (fun acc p => setField acc p.1 p.2) d

/-- `update_one`: rewrite the first matching document. -/
def updateFirst : List SDoc → MFilter → MSet → List SDoc
  | [], _, _ => []
  | d :: rest, f, u =>
    if docMatches d f then applySet d u :: rest
    else d :: updateFirst rest f u

/-- `delete_one`: remove the first matching document. -/
def removeFirst : List SDoc → MFilter → List SDoc
  | [], _ => []
  | d :: rest, f =>
    if docMatches d f then rest else d :: removeFirst rest f

/-- Interpret a store operation on the collection. -/
def runStoreOp (coll : List SDoc) : StoreOp → List SDoc
  | .updateOne f u => updateFirst coll f u
  | .updateMany f u =>
      coll.map (fun d => if docMatches d f then applySet d u else d)
  | .deleteOne f => removeFirst coll f
  | .deleteMany f => coll.filter (fun d => !(docMatches d f))

namespace DocumentBaseWithSoftDelete

/-- `is_deleted`: the document has been soft deleted. -/
def is_deleted (d : SDoc) : Bool :=
  d.deleted_at.isSome

/-- `apply_soft_delete_filter`: copy the caller's filter and, unless deleted
documents are included or the caller already constrains `deleted_at`, add
the `deleted_at = None` condition. -/
def apply_soft_delete_filter (filter_query : Option MFilter)
    (include_deleted : Bool) : MFilter :=
  let result_filter :=
    match filter_query with
    | none => []
    | some fq => fq
  if !include_deleted && !(hasKeyC result_filter "deleted_at") then
    result_filter ++ [("deleted_at", .meq .mnull)]
  else
    result_filter

/-- `get_soft_delete_filter`: the pure soft-delete filter condition. -/
def get_soft_delete_filter (include_deleted : Bool) : MFilter :=
  if include_deleted then [] else [("deleted_at", .meq .mnull)]

/-- The `deleted_id` value a single `delete()` computes: `0`, overwritten by
`abs(hash(str(self.id)))` when the document has a (truthy) id. -/
def deleteIdValue (d : SDoc) (pyHash : String → Int) : Int :=
  match d.id with
  | some s => ((pyHash s).natAbs : Int)
  | none => 0

/-- The `$set` document a single `delete()` sends. -/
def deleteSetDoc (now : Nat) (deleted_by : Option String) (did : Int) : MSet :=
  [("deleted_at", .mtime now), ("deleted_by", optStr deleted_by),
   ("deleted_id", .mint did)]

/-- `delete()`: soft delete the current document.  Returns the updated
in-memory object together with the pymongo call issued (none when the
document is already soft deleted). -/
def delete (d : SDoc) (now : Nat) (pyHash : String → Int)
    (deleted_by : Option String) : SDoc × Option StoreOp :=
  if is_deleted d then (d, none)
  else
    let deleted_id_value := deleteIdValue d pyHash
    ({ d with deleted_at := some now, deleted_by := deleted_by,
              deleted_id := deleted_id_value },
     some (.updateOne [("_id", .meq (idVal d.id))]
       (deleteSetDoc now deleted_by deleted_id_value)))

/-- The `$set` document `restore()` and `restore_many()` send. -/
def restoreSetDoc : MSet :=
  [("deleted_at", .mnull), ("deleted_by", .mnull), ("deleted_id", .mint 0)]

/-- `restore()`: clear the soft-delete mark of a soft-deleted document. -/
def restore (d : SDoc) : SDoc × Option StoreOp :=
  if !is_deleted d then (d, none)
  else
    ({ d with deleted_at := none, deleted_by := none, deleted_id := 0 },
     some (.updateOne [("_id", .meq (idVal d.id))] restoreSetDoc))

/-- `hard_delete()`: physical deletion of the current document (the parent
class's `delete`, a pymongo `delete_one` on the document's id). -/
def hard_delete (d : SDoc) : StoreOp :=
  .deleteOne [("_id", .meq (idVal d.id))]

/-- The `$set` document `delete_many()` sends: `deleted_id` is the
microsecond-level timestamp of the deletion time (`int(now.timestamp() *
1000000)`, the identity on our microsecond clock). -/
def deleteManySetDoc (now : Nat) (deleted_by : Option String) : MSet :=
  [("deleted_at", .mtime now), ("deleted_by", optStr deleted_by),
   ("deleted_id", .mint (now : Int))]

/-- `delete_many()`: bulk soft delete through `update_many`, with the
soft-delete filter applied to the caller's filter. -/
def delete_many (filter_query : MFilter) (now : Nat)
    (deleted_by : Option String) : StoreOp :=
  .updateMany (apply_soft_delete_filter (some filter_query) false)
    (deleteManySetDoc now deleted_by)

/-- `restore_many()`: bulk restore through `update_many`; the filter gains a
`deleted_at != None` condition unless the caller already constrains it. -/
def restore_many (filter_query : MFilter) : StoreOp :=
  let final₀ := apply_soft_delete_filter (some filter_query) true
  let final :=
    if hasKeyC final₀ "deleted_at" then final₀
    else final₀ ++ [("deleted_at", .mne .mnull)]
  .updateMany final restoreSetDoc

/-- `hard_delete_many()`: bulk physical deletion with the caller's filter. -/
def hard_delete_many (filter_query : MFilter) : StoreOp :=
  .deleteMany filter_query

/-- The in-memory document states reachable through the mixin's own
operations: a freshly parsed live document, single `delete()` / `restore()`,
and the bulk `$set` documents of `delete_many()` / `restore_many()` as
`update_many` applies them to a matched document. -/
inductive Reached : SDoc → Prop where
  | init (id : Option String) (extra : List (String × MVal)) :
      Reached ⟨id, none, none, 0, extra⟩
  | del (d : SDoc) (now : Nat) (pyHash : String → Int)
      (deleted_by : Option String) :
      Reached d → Reached (delete d now pyHash deleted_by).1
  | res (d : SDoc) : Reached d → Reached (restore d).1
  | bulkDel (d : SDoc) (now : Nat) (deleted_by : Option String) :
      Reached d → Reached (applySet d (deleteManySetDoc now deleted_by))
  | bulkRes (d : SDoc) : Reached d → Reached (applySet d restoreSetDoc)

/-- The bulk soft-delete `$set` document marks a document deleted at `now`,
records the operator, and stamps the microsecond timestamp as `deleted_id`. -/
theorem applySet_deleteManySetDoc (d : SDoc) (now : Nat) (who : Option String) :
    applySet d (deleteManySetDoc now who)
      = { d with deleted_at := some now, deleted_by := who,
                 deleted_id := (now : Int) } := by
  cases who <;> rfl

/-- The restore `$set` document clears all three soft-delete fields. -/
theorem applySet_restoreSetDoc (d : SDoc) :
    applySet d restoreSetDoc
      = { d with deleted_at := none, deleted_by := none, deleted_id := 0 } := by
  rfl

/-- Every reachable live document carries the pristine audit fields:
no `deleted_by` and the sentinel `deleted_id = 0`. -/
theorem live_audit_fields {d : SDoc} (h : Reached d) :
    d.deleted_at = none → d.deleted_by = none ∧ d.deleted_id = 0 := by
  induction h with
  | init id extra => intro _; exact ⟨rfl, rfl⟩
  | del d now pyHash deleted_by _ ih =>
    intro hl
    by_cases hdel : is_deleted d = true
    · simp only [delete, hdel, if_pos] at hl ⊢
      exact ih hl
    · simp only [Bool.not_eq_true] at hdel
      simp [delete, hdel] at hl
  | res d _ ih =>
    intro hl
    by_cases hdel : is_deleted d = true
    · simp [restore, hdel]
    · simp only [Bool.not_eq_true] at hdel
      simp only [restore, hdel, Bool.not_false, if_pos] at hl ⊢
      exact ih hl
  | bulkDel d now deleted_by _ _ =>
    intro hl
    rw [applySet_deleteManySetDoc] at hl
    simp at hl
  | bulkRes d _ _ =>
    intro _
    rw [applySet_restoreSetDoc]
    exact ⟨rfl, rfl⟩

/-- `update_one` never changes the number of stored documents. -/
theorem length_updateFirst (coll : List SDoc) (f : MFilter) (u : MSet) :
    (updateFirst coll f u).length = coll.length := by
  induction coll with
  | nil => rfl
  | cons d rest ih =>
    by_cases hm : docMatches d f = true <;>
      simp [updateFirst, hm, ih]

/-- C1 (amended): a reachable document that is not soft-deleted has the
sentinel `deleted_id = 0`; a single `delete()` assigns
`abs(hash(str(id)))` when the document has an id and the sentinel `0` when
it has none; and `delete_many()` stamps every matched document with the
microsecond timestamp of the deletion time, so the assigned values are
only heuristically unique. -/
theorem deleted_id_discriminator (d : SDoc) (now : Nat) (pyHash : String → Int)
    (deleted_by : Option String) (hr : Reached d) :
    (is_deleted d = false → d.deleted_id = 0) ∧
    (is_deleted d = false → ∀ s, d.id = some s →
      (delete d now pyHash deleted_by).1.deleted_id = ((pyHash s).natAbs : Int)) ∧
    (is_deleted d = false → d.id = none →
      (delete d now pyHash deleted_by).1.deleted_id = 0) ∧
    lookupVal (deleteManySetDoc now deleted_by) "deleted_id" = .mint (now : Int) := by
  have hnone : is_deleted d = false → d.deleted_at = none := by
    intro h
    cases hda : d.deleted_at with
    | none => rfl
    | some t => rw [is_deleted, hda] at h; simp at h
  refine ⟨fun h => (live_audit_fields hr (hnone h)).2, ?_, ?_, ?_⟩
  · intro h s hs
    simp [delete, h, deleteIdValue, hs]
  · intro h hid
    simp [delete, h, deleteIdValue, hid]
  · rfl

/-- C1 witness: a concrete reachable live document with an id. -/
theorem deleted_id_discriminator_witness :
    Reached (⟨some "64f0aa", none, none, 0, []⟩ : SDoc) ∧
    ((is_deleted (⟨some "64f0aa", none, none, 0, []⟩ : SDoc) = false →
        (⟨some "64f0aa", none, none, 0, []⟩ : SDoc).deleted_id = 0) ∧
     (is_deleted (⟨some "64f0aa", none, none, 0, []⟩ : SDoc) = false →
        ∀ s, (⟨some "64f0aa", none, none, 0, []⟩ : SDoc).id = some s →
        (delete ⟨some "64f0aa", none, none, 0, []⟩ 3 (fun _ => -7) (some "op")).1.deleted_id
          = (((fun _ : String => (-7 : Int)) s).natAbs : Int)) ∧
     (is_deleted (⟨some "64f0aa", none, none, 0, []⟩ : SDoc) = false →
        (⟨some "64f0aa", none, none, 0, []⟩ : SDoc).id = none →
        (delete ⟨some "64f0aa", none, none, 0, []⟩ 3 (fun _ => -7) (some "op")).1.deleted_id = 0) ∧
     lookupVal (deleteManySetDoc 3 (some "op")) "deleted_id" = .mint (3 : Int)) :=
  ⟨Reached.init (some "64f0aa") [],
   deleted_id_discriminator ⟨some "64f0aa", none, none, 0, []⟩ 3 (fun _ => -7)
     (some "op") (Reached.init (some "64f0aa") [])⟩

/-- C1 counterexample: two distinct deletions both stamp the sentinel
`deleted_id = 0` (a document without an id), so a soft deletion does not
always assign a `deleted_id` unique to that deletion and distinct from the
live sentinel; likewise two bulk deletions at the same microsecond share
one `deleted_id`. -/
theorem deleted_id_discriminator_cex :
    DocumentBaseWithSoftDelete.is_deleted
      (DocumentBaseWithSoftDelete.delete ⟨none, none, none, 0, [("email", .mstr "x")]⟩
        1 (fun _ => 0) (some "a")).1 = true ∧
    DocumentBaseWithSoftDelete.is_deleted
      (DocumentBaseWithSoftDelete.delete ⟨none, none, none, 0, [("email", .mstr "x")]⟩
        2 (fun _ => 0) (some "b")).1 = true ∧
    (DocumentBaseWithSoftDelete.delete ⟨none, none, none, 0, [("email", .mstr "x")]⟩
        1 (fun _ => 0) (some "a")).1.deleted_id = 0 ∧
    (DocumentBaseWithSoftDelete.delete ⟨none, none, none, 0, [("email", .mstr "x")]⟩
        2 (fun _ => 0) (some "b")).1.deleted_id = 0 ∧
    (DocumentBaseWithSoftDelete.delete ⟨none, none, none, 0, [("email", .mstr "x")]⟩
        1 (fun _ => 0) (some "a")).1
      ≠ (DocumentBaseWithSoftDelete.delete ⟨none, none, none, 0, [("email", .mstr "x")]⟩
        2 (fun _ => 0) (some "b")).1 ∧
    lookupVal (DocumentBaseWithSoftDelete.deleteManySetDoc 5 (some "a")) "deleted_id"
      = lookupVal (DocumentBaseWithSoftDelete.deleteManySetDoc 5 (some "b")) "deleted_id" ∧
    DocumentBaseWithSoftDelete.deleteManySetDoc 5 (some "a")
      ≠ DocumentBaseWithSoftDelete.deleteManySetDoc 5 (some "b") := by
  decide

/-- C2: on a live document, `delete()` marks it deleted at the given
timezone-aware instant, records the operator, and issues exactly one
length-preserving `update_one` to the store, while physical removal is
only what `hard_delete()` / `hard_delete_many()` issue. -/
theorem soft_delete_marks_without_removal (d : SDoc) (now : Nat)
    (pyHash : String → Int) (who : Option String)
    (hl : d.deleted_at = none) :
    is_deleted (delete d now pyHash who).1 = true ∧
    (delete d now pyHash who).1.deleted_at = some now ∧
    (delete d now pyHash who).1.deleted_by = who ∧
    (∃ f u, (delete d now pyHash who).2 = some (.updateOne f u) ∧
      ∀ coll : List SDoc, (runStoreOp coll (.updateOne f u)).length = coll.length) ∧
    (∃ f, hard_delete d = .deleteOne f) ∧
    (∀ fq : MFilter, hard_delete_many fq = .deleteMany fq) := by
  refine ⟨?_, ?_, ?_, ?_, ⟨_, rfl⟩, fun _ => rfl⟩
  · simp [delete, is_deleted, hl]
  · simp [delete, is_deleted, hl]
  · simp [delete, is_deleted, hl]
  · refine ⟨[("_id", .meq (idVal d.id))],
      deleteSetDoc now who (deleteIdValue d pyHash), ?_,
      fun coll => length_updateFirst coll _ _⟩
    simp [delete, is_deleted, hl]

/-- C2 witness for the live-document hypothesis. -/
theorem soft_delete_marks_without_removal_witness :
    (⟨some "a1", none, none, 0, []⟩ : SDoc).deleted_at = none ∧
    is_deleted (delete ⟨some "a1", none, none, 0, []⟩ 9 (fun _ => 4) (some "adm")).1 = true :=
  ⟨rfl, (soft_delete_marks_without_removal ⟨some "a1", none, none, 0, []⟩ 9
    (fun _ => 4) (some "adm") rfl).1⟩

/-- C3: on a reachable live document, `delete()` then `restore()` returns the
document exactly to its original state (`deleted_at = None`,
`deleted_by = None`, `deleted_id = 0`), and each operation's `$set`
document touches exactly the three soft-delete fields. -/
theorem delete_restore_roundtrip (d : SDoc) (now : Nat) (pyHash : String → Int)
    (who : Option String) (hr : Reached d) (hl : d.deleted_at = none) :
    (restore (delete d now pyHash who).1).1 = d ∧
    (delete d now pyHash who).1.id = d.id ∧
    (delete d now pyHash who).1.extra = d.extra ∧
    (∃ f u, (delete d now pyHash who).2 = some (.updateOne f u) ∧
      u.map Prod.fst = ["deleted_at", "deleted_by", "deleted_id"]) ∧
    (∃ f u, (restore (delete d now pyHash who).1).2 = some (.updateOne f u) ∧
      u.map Prod.fst = ["deleted_at", "deleted_by", "deleted_id"] ∧
      lookupVal u "deleted_at" = .mnull ∧
      lookupVal u "deleted_by" = .mnull ∧
      lookupVal u "deleted_id" = .mint 0) := by
  obtain ⟨hby, hid⟩ := live_audit_fields hr hl
  obtain ⟨i, dat, dby, did, ex⟩ := d
  simp only at hl hby hid
  subst hl hby hid
  refine ⟨?_, ?_, ?_, ?_, ?_⟩
  · simp [delete, restore, is_deleted]
  · simp [delete, is_deleted]
  · simp [delete, is_deleted]
  · exact ⟨[("_id", .meq (idVal i))],
      deleteSetDoc now who (deleteIdValue ⟨i, none, none, 0, ex⟩ pyHash),
      by simp [delete, is_deleted], rfl⟩
  · exact ⟨[("_id", .meq (idVal i))], restoreSetDoc,
      by simp [delete, restore, is_deleted], rfl, rfl, rfl, rfl⟩

/-- C3 witness: a concrete reachable live document. -/
theorem delete_restore_roundtrip_witness :
    Reached (⟨some "b2", none, none, 0, [("k", .mint 1)]⟩ : SDoc) ∧
    (⟨some "b2", none, none, 0, [("k", .mint 1)]⟩ : SDoc).deleted_at = none ∧
    (restore (delete ⟨some "b2", none, none, 0, [("k", .mint 1)]⟩ 7 (fun _ => 11)
        (some "ops")).1).1 = ⟨some "b2", none, none, 0, [("k", .mint 1)]⟩ :=
  ⟨Reached.init (some "b2") [("k", .mint 1)], rfl,
   (delete_restore_roundtrip ⟨some "b2", none, none, 0, [("k", .mint 1)]⟩ 7
     (fun _ => 11) (some "ops") (Reached.init (some "b2") [("k", .mint 1)]) rfl).1⟩

/-- C5: `delete()` on an already-deleted document and `restore()` on a live
document are no-ops returning no store operation, and both operations are
idempotent. -/
theorem delete_restore_noop_outside_precondition (d : SDoc) (now now2 : Nat)
    (pyHash pyHash2 : String → Int) (who who2 : Option String) :
    (is_deleted d = true → delete d now pyHash who = (d, none)) ∧
    (is_deleted d = false → restore d = (d, none)) ∧
    delete (delete d now pyHash who).1 now2 pyHash2 who2
      = ((delete d now pyHash who).1, none) ∧
    restore (restore d).1 = ((restore d).1, none) := by
  refine ⟨fun h => by simp [delete, h], fun h => by simp [restore, h], ?_, ?_⟩
  · cases hda : d.deleted_at with
    | none => simp [delete, is_deleted, hda]
    | some t => simp [delete, is_deleted, hda]
  · cases hda : d.deleted_at with
    | none => simp [restore, is_deleted, hda]
    | some t => simp [restore, is_deleted, hda]

/-- C5 witness: concrete already-deleted and live documents. -/
theorem delete_restore_noop_witness :
    is_deleted (⟨some "c3", some 4, some "p", 9, []⟩ : SDoc) = true ∧
    delete ⟨some "c3", some 4, some "p", 9, []⟩ 10 (fun _ => 2) (some "q")
      = (⟨some "c3", some 4, some "p", 9, []⟩, none) :=
  ⟨rfl, (delete_restore_noop_outside_precondition ⟨some "c3", some 4, some "p", 9, []⟩
    10 11 (fun _ => 2) (fun _ => 3) (some "q") none).1 rfl⟩

/-- The `deleted_at` field as a Mongo query sees it. -/
theorem fieldValue_deleted_at (d : SDoc) :
    fieldValue d "deleted_at" = optTime d.deleted_at := by
  rfl

/-- Equality with `null` on the stored `deleted_at` value means live. -/
theorem optTime_beq_mnull (x : Option Nat) :
    (optTime x == MVal.mnull) = true ↔ x = none := by
  cases x <;> simp [optTime]

/-- Appending an entry with a different key does not change a lookup. -/
theorem lookupC_append_single (fq : MFilter) (k k0 : String) (c : MCond)
    (hne : k ≠ k0) :
    lookupC (fq ++ [(k0, c)]) k = lookupC fq k := by
  induction fq with
  | nil =>
    have : (k0 == k) = false := by
      simp [Ne.symm hne]
    simp [lookupC, List.find?, this]
  | cons p rest ih =>
    by_cases hp : (p.1 == k) = true
    · simp [lookupC, List.find?, hp]
    · have hp' : (p.1 == k) = false := by
        simpa using hp
      simpa [lookupC, List.find?, hp'] using ih

/-- C4 (amended): provided the caller's filter does not itself constrain
`deleted_at`, `delete_many()` augments it with the soft-delete condition,
so a document is matched exactly when it satisfies the caller's filter and
is live, and `update_many`'s `$set` marks each matched document deleted at
`now`, by the given operator, with the microsecond timestamp as
`deleted_id`. -/
theorem delete_many_filters_and_marks (fq : MFilter) (now : Nat)
    (who : Option String) (hk : hasKeyC fq "deleted_at" = false) :
    (delete_many fq now who).filterOf = fq ++ [("deleted_at", .meq .mnull)] ∧
    (∀ d : SDoc, docMatches d (delete_many fq now who).filterOf = true →
        d.deleted_at = none ∧ docMatches d fq = true) ∧
    (∀ d : SDoc, docMatches d fq = true → d.deleted_at = none →
        docMatches d (delete_many fq now who).filterOf = true) ∧
    (∀ d : SDoc,
        (applySet d (delete_many fq now who).setDocOf).deleted_at = some now ∧
        (applySet d (delete_many fq now who).setDocOf).deleted_by = who ∧
        (applySet d (delete_many fq now who).setDocOf).deleted_id = (now : Int)) := by
  have hfil : (delete_many fq now who).filterOf
      = fq ++ [("deleted_at", .meq .mnull)] := by
    simp [delete_many, StoreOp.filterOf, apply_soft_delete_filter, hk]
  refine ⟨hfil, ?_, ?_, ?_⟩
  · intro d hm
    rw [hfil] at hm
    simp only [docMatches, List.all_append, Bool.and_eq_true, List.all_cons,
      List.all_nil, Bool.and_true, condMatch, fieldValue_deleted_at] at hm
    exact ⟨(optTime_beq_mnull d.deleted_at).mp hm.2, hm.1⟩
  · intro d hm hlive
    rw [hfil]
    simp only [docMatches, List.all_append, Bool.and_eq_true, List.all_cons,
      List.all_nil, Bool.and_true, condMatch, fieldValue_deleted_at]
    exact ⟨hm, (optTime_beq_mnull d.deleted_at).mpr hlive⟩
  · intro d
    have hset : (delete_many fq now who).setDocOf = deleteManySetDoc now who := rfl
    rw [hset, applySet_deleteManySetDoc]
    exact ⟨rfl, rfl, rfl⟩

/-- C4 witness: a concrete filter on a business field. -/
theorem delete_many_filters_and_marks_witness :
    hasKeyC [("group_id", .meq (.mstr "g"))] "deleted_at" = false ∧
    (delete_many [("group_id", .meq (.mstr "g"))] 4 (some "s")).filterOf
      = [("group_id", .meq (.mstr "g"))] ++ [("deleted_at", .meq .mnull)] :=
  ⟨rfl, (delete_many_filters_and_marks [("group_id", .meq (.mstr "g"))] 4
    (some "s") rfl).1⟩

/-- C4 counterexample: when the caller's filter already carries a
`deleted_at` key, `delete_many()` leaves it untouched, so a soft-deleted
document is matched and would be re-stamped. -/
theorem delete_many_filters_and_marks_cex :
    (⟨some "a", some 7, some "p", 5, []⟩ : SDoc).deleted_at ≠ none ∧
    docMatches ⟨some "a", some 7, some "p", 5, []⟩
      (DocumentBaseWithSoftDelete.delete_many [("deleted_at", .mne .mnull)] 9
        none).filterOf = true := by
  decide

/-- C9: `apply_soft_delete_filter` is a pure filter constructor: the result
is exactly the caller's entries, plus the single `deleted_at = None` entry
precisely when deleted documents are excluded and the caller does not
already constrain `deleted_at`; with no filter given it starts from the
empty dictionary. -/
theorem apply_soft_delete_filter_pure (fq : MFilter) (incl : Bool) (k : String)
    (hne : k ≠ "deleted_at") :
    apply_soft_delete_filter (some fq) true = fq ∧
    (hasKeyC fq "deleted_at" = true →
      apply_soft_delete_filter (some fq) incl = fq) ∧
    (hasKeyC fq "deleted_at" = false →
      apply_soft_delete_filter (some fq) false
        = fq ++ [("deleted_at", .meq .mnull)]) ∧
    lookupC (apply_soft_delete_filter (some fq) incl) k = lookupC fq k ∧
    apply_soft_delete_filter none incl = apply_soft_delete_filter (some []) incl ∧
    apply_soft_delete_filter none true = [] ∧
    apply_soft_delete_filter none false = [("deleted_at", .meq .mnull)] := by
  refine ⟨by simp [apply_soft_delete_filter], fun h => ?_, fun h => ?_, ?_, ?_,
    rfl, rfl⟩
  · simp [apply_soft_delete_filter, h]
  · simp [apply_soft_delete_filter, h]
  · by_cases hkey : hasKeyC fq "deleted_at" = true
    · simp [apply_soft_delete_filter, hkey]
    · have hkey' : hasKeyC fq "deleted_at" = false := by simpa using hkey
      cases incl with
      | true => simp [apply_soft_delete_filter]
      | false =>
        simp only [apply_soft_delete_filter, hkey', Bool.not_false,
          Bool.and_self, if_pos]
        exact lookupC_append_single fq k "deleted_at" (.meq .mnull) hne
  · rfl

/-- C9 witness: key distinct from `deleted_at` at a concrete filter. -/
theorem apply_soft_delete_filter_pure_witness :
    ("status" : String) ≠ "deleted_at" ∧
    lookupC (apply_soft_delete_filter (some [("status", .meq (.mstr "on"))]) false)
        "status" = lookupC [("status", .meq (.mstr "on"))] "status" :=
  ⟨by decide,
   (apply_soft_delete_filter_pure [("status", .meq (.mstr "on"))] false "status"
     (by decide)).2.2.2.1⟩

end DocumentBaseWithSoftDelete

/-!
## `common_utils/datetime_utils.py`

The module's `timezone` global (a `ZoneInfo` from the `TZ` environment
variable, `Asia/Shanghai` by default) is modelled as a fixed UTC offset
`tzOff` in microseconds, passed explicitly; `Asia/Shanghai` is a
fixed-offset zone (+8h, `28800000000` µs), so nothing is lost for the
default configuration.  A Python `datetime` is `PyDatetime`: the naive
wall-clock reading in microseconds since `1970-01-01T00:00:00` of that
wall clock, plus the `tzinfo` utc-offset (`none` = naive).  The standard
library pieces the code calls into — `datetime.fromisoformat`,
`datetime.fromtimestamp`, `datetime.isoformat`, `float()` — are modelled
at microsecond exactness over the common colon-separated ISO forms the
code's docstrings show; `float` values are exact rationals. -/

namespace DatetimeUtils

/-- A Python `datetime`: naive wall-clock microseconds since the epoch of
that wall clock, and the `tzinfo` utc-offset in microseconds (`none` =
naive datetime). -/
structure PyDatetime where
  wallUs : Int
  offUs : Option Int
deriving DecidableEq, Repr

/-- Microseconds per day. -/
def usPerDay : Int := 86400000000

/-- Gregorian leap year. -/
def isLeap (y : Nat) : Bool :=
  (y % 4 == 0 && y % 100 != 0) || y % 400 == 0

/-- Days in a month of the proleptic Gregorian calendar. -/
def daysInMonth (y mo : Nat) : Nat :=
  if mo = 2 then (if isLeap y then 29 else 28)
  else if mo = 4 ∨ mo = 6 ∨ mo = 9 ∨ mo = 11 then 30
  else 31

/-- Days from the civil date `(y, mo, d)` to 1970-01-01 (standard
era/year-of-era computation; valid for years `1..9999`). -/
def daysFromCivil (y mo d : Nat) : Int :=
  let y1 := if mo ≤ 2 then y - 1 else y
  let era := y1 / 400
  let yoe := y1 % 400
  let mp := if 2 < mo then mo - 3 else mo + 9
  let doy := (153 * mp + 2) / 5 + d - 1
  let doe := yoe * 365 + yoe / 4 - yoe / 100 + doy
  (era * 146097 + doe : Int) - 719468

/-- Inverse of `daysFromCivil` on the shifted day count
`z = daysFromCivil y mo d + 719468`. -/
def civilFromDays (z : Nat) : Nat × Nat × Nat :=
  let era := z / 146097
  let doe := z % 146097
  let yoe := (doe - doe / 1460 + doe / 36524 - doe / 146096) / 365
  let y := yoe + era * 400
  let doy := doe - (365 * yoe + yoe / 4 - yoe / 100)
  let mp := (5 * doy + 2) / 153
  let d := doy - (153 * mp + 2) / 5 + 1
  let mo := if mp < 10 then mp + 3 else mp - 9
  (if mo ≤ 2 then y + 1 else y, mo, d)

/-- Wall-clock microseconds of a civil date at midnight. -/
def epochDateUs (y mo d : Nat) : Int :=
  daysFromCivil y mo d * usPerDay

/-- The smallest wall-clock reading `datetime` can represent
(`datetime.min`, year 1). -/
def minWallUs : Int := epochDateUs 1 1 1

/-- The largest wall-clock reading `datetime` can represent
(`datetime.max`, end of year 9999). -/
def maxWallUs : Int := epochDateUs 9999 12 31 + (86399 : Int) * 1000000 + 999999

/-- Decimal digit value of a character. -/
def dval (c : Char) : Nat := c.toNat - 48

/-- Read exactly two decimal digits. -/
def read2 : List Char → Option (Nat × List Char)
  | a :: b :: r => if a.isDigit && b.isDigit then some (10 * dval a + dval b, r) else none
  | _ => none

/-- Consume a run of decimal digits, returning value, digit count, rest. -/
def digitsAux : List Char → Nat → Nat → Nat × Nat × List Char
  | [], acc, n => (acc, n, [])
  | c :: r, acc, n =>
    if c.isDigit then digitsAux r (acc * 10 + dval c) (n + 1)
    else (acc, n, c :: r)

/-- Scale a fractional-second digit run to microseconds (extra digits are
truncated, short runs padded, as `fromisoformat` does). -/
def fracScale (v n : Nat) : Nat :=
  if 6 ≤ n then v / 10 ^ (n - 6) else v * 10 ^ (6 - n)

/-- Parse a fractional-second digit run (at least one digit). -/
def parseFracUs (cs : List Char) : Option (Nat × List Char) :=
  match digitsAux cs 0 0 with
  | (v, n, r) => if n = 0 then none else some (fracScale v n, r)

/-- Build a utc-offset, rejecting magnitudes of a day or more as
`datetime.timezone` does. -/
def mkOff (sgn : Int) (secs : Nat) : Option (Option Int) :=
  if secs < 86400 then some (some (sgn * (secs : Int) * 1000000)) else none

/-- Parse the body of a `±HH:MM[:SS]` utc-offset (the whole remainder). -/
def parseOffBody (r : List Char) (sgn : Int) : Option (Option Int) :=
  match read2 r with
  | some (oh, r1) =>
    match r1 with
    | ':' :: r2 =>
      match read2 r2 with
      | some (om, r3) =>
        if 60 ≤ om then none
        else
          match r3 with
          | [] => mkOff sgn (oh * 3600 + om * 60)
          | ':' :: r4 =>
            match read2 r4 with
            | some (os, []) =>
              if 60 ≤ os then none else mkOff sgn (oh * 3600 + om * 60 + os)
            | _ => none
          | _ => none
      | none => none
    | _ => none
  | none => none

/-- Parse an optional trailing utc-offset. -/
def parseOffset : List Char → Option (Option Int)
  | [] => some none
  | '+' :: r => parseOffBody r 1
  | '-' :: r => parseOffBody r (-1)
  | _ => none

/-- Wall-clock microseconds within a day. -/
def timeUs (h mi s us : Nat) : Nat :=
  (h * 3600 + mi * 60 + s) * 1000000 + us

/-- Parse the `HH[:MM[:SS[.ffffff]]][±HH:MM[:SS]]` part of an ISO string. -/
def parseTimePart (cs : List Char) : Option (Nat × Option Int) :=
  match read2 cs with
  | none => none
  | some (h, r1) =>
    if 24 ≤ h then none
    else
      match r1 with
      | ':' :: r2 =>
        match read2 r2 with
        | none => none
        | some (mi, r3) =>
          if 60 ≤ mi then none
          else
            match r3 with
            | ':' :: r4 =>
              match read2 r4 with
              | none => none
              | some (se, r5) =>
                if 60 ≤ se then none
                else
                  match r5 with
                  | '.' :: r6 =>
                    match parseFracUs r6 with
                    | none => none
                    | some (us, r7) =>
                      (parseOffset r7).map (fun off => (timeUs h mi se us, off))
                  | _ => (parseOffset r5).map (fun off => (timeUs h mi se 0, off))
            | _ => (parseOffset r3).map (fun off => (timeUs h mi 0 0, off))
      | _ => (parseOffset r1).map (fun off => (timeUs h 0 0 0, off))

/-- Model of `datetime.fromisoformat` over the colon-separated forms
`YYYY-MM-DD[<sep>HH[:MM[:SS[.ffffff]]][±HH:MM[:SS]]]` (any single
separator character, as in Python 3.11); `none` models the `ValueError`
the real function raises on anything it cannot parse. -/
def fromisoformat (s : String) : Option PyDatetime :=
  match s.toList with
  | y1 :: y2 :: y3 :: y4 :: c1 :: m1 :: m2 :: c2 :: d1 :: d2 :: rest =>
    if y1.isDigit && y2.isDigit && y3.isDigit && y4.isDigit && c1 == '-' &&
       m1.isDigit && m2.isDigit && c2 == '-' && d1.isDigit && d2.isDigit then
      let y := 1000 * dval y1 + 100 * dval y2 + 10 * dval y3 + dval y4
      let mo := 10 * dval m1 + dval m2
      let dd := 10 * dval d1 + dval d2
      if 1 ≤ y ∧ 1 ≤ mo ∧ mo ≤ 12 ∧ 1 ≤ dd ∧ dd ≤ daysInMonth y mo then
        match rest with
        | [] => some ⟨epochDateUs y mo dd, none⟩
        | _sep :: trest =>
          match parseTimePart trest with
          | some (tus, off) => some ⟨epochDateUs y mo dd + (tus : Int), off⟩
          | none => none
      else none
    else none
  | _ => none

/-- Zero-padded decimal rendering. -/
def pad (w n : Nat) : String :=
  let s := toString n
  (List.replicate (w - s.length) '0').asString ++ s

/-- Model of `datetime.isoformat`: render the wall-clock reading, with the
microseconds only when nonzero and the utc-offset only when aware. -/
def isoformat (dt : PyDatetime) : String :=
  let n := (dt.wallUs + 719468 * usPerDay).toNat
  let rem := n % 86400000000
  let ymd := civilFromDays (n / 86400000000)
  let us := rem % 1000000
  let base := pad 4 ymd.1 ++ "-" ++ pad 2 ymd.2.1 ++ "-" ++ pad 2 ymd.2.2 ++ "T" ++
    pad 2 (rem / 3600000000) ++ ":" ++ pad 2 (rem % 3600000000 / 60000000) ++ ":" ++
    pad 2 (rem % 60000000 / 1000000) ++
    (if us = 0 then "" else "." ++ pad 6 us)
  match dt.offUs with
  | none => base
  | some o =>
    let a := o.natAbs / 1000000
    base ++ (if o < 0 then "-" else "+") ++ pad 2 (a / 3600) ++ ":" ++
      pad 2 (a % 3600 / 60) ++ (if a % 60 = 0 then "" else ":" ++ pad 2 (a % 60))

/-- Model of `datetime.astimezone` under the fixed local offset `tzOff`: a
naive datetime is interpreted in the system-local zone, an aware one in
its own. -/
def astimezone (tzOff : Int) (dt : PyDatetime) (target : Int) : PyDatetime :=
  ⟨dt.wallUs - (dt.offUs.getD tzOff) + target, some target⟩

/-- `dt.replace(tzinfo=...)`: keep the wall clock, set the offset. -/
def replaceTz (dt : PyDatetime) (o : Int) : PyDatetime :=
  ⟨dt.wallUs, some o⟩

/-- The exceptions the datetime code can raise. -/
inductive PyErr where
  | valueError
  | typeError
  | overflowError
deriving DecidableEq, Repr

/-- Model of `datetime.fromtimestamp(sec, tz)` at exact rational seconds:
out-of-range instants raise (`OverflowError`/`ValueError` in CPython). -/
def fromtimestamp (tzOff : Int) (sec : ℚ) : Except PyErr PyDatetime :=
  let wall := round (sec * 1000000) + tzOff
  if minWallUs ≤ wall ∧ wall ≤ maxWallUs then .ok ⟨wall, some tzOff⟩
  else .error .overflowError

/-- `from_timestamp`: unix timestamp to datetime, auto-detecting seconds
(`< 1e12`) versus milliseconds (`≥ 1e12`). -/
def from_timestamp (tzOff : Int) (timestamp : ℚ) : Except PyErr PyDatetime :=
  let timestamp_seconds :=
    if (1000000000000 : ℚ) ≤ timestamp then timestamp / 1000 else timestamp
  fromtimestamp tzOff timestamp_seconds

/-- The Python values fed to the module's converters.  `pfloat` carries the
exact rational value of a finite float; `pother` is an arbitrary object
carrying its `str()` rendering; `pbool` is its own case because `type(x)`
dispatch and `isinstance` dispatch treat `bool` differently. -/
inductive PyVal where
  | pnone
  | pbool (b : Bool)
  | pint (n : Int)
  | pfloat (q : ℚ)
  | pstr (s : String)
  | pdatetime (dt : PyDatetime)
  | pother (s : String)
deriving DecidableEq, Repr

/-- Replace every `Z` character by `+00:00` (`str.replace("Z", "+00:00")`). -/
def replaceZchars : List Char → List Char
  | [] => []
  | c :: r =>
    if c = 'Z' then '+' :: '0' :: '0' :: ':' :: '0' :: '0' :: replaceZchars r
    else c :: replaceZchars r

/-- The `"Z"`-suffix normalisation both parsers perform:
`s.replace("Z", "+00:00") if s.endswith("Z") else s`. -/
def zReplace (s : String) : String :=
  match s.toList.getLast? with
  | some 'Z' => ⟨replaceZchars s.toList⟩
  | _ => s

/-- Ensure a timezone and convert to the local zone (the tail of
`to_iso_format`): a naive datetime is stamped with the local zone first. -/
def finishIso (tzOff : Int) (dt : PyDatetime) : String :=
  let dt1 := if dt.offUs = none then replaceTz dt tzOff else dt
  isoformat (astimezone tzOff dt1 tzOff)

/-- `to_iso_format`: convert a time value to an ISO string in the local
timezone, dispatching on the exact runtime type. -/
def to_iso_format (tzOff : Int) (time_value : PyVal) :
    Except PyErr (Option String) :=
  match time_value with
  | .pnone => .ok none
  | .pstr s =>
    if s = "" then .ok none
    else
      match fromisoformat (zReplace s) with
      | none => .error .valueError
      | some dt => .ok (some (finishIso tzOff dt))
  | .pint n =>
    if n ≤ 0 then .error .valueError
    else (from_timestamp tzOff (n : ℚ)).map (fun dt => some (finishIso tzOff dt))
  | .pfloat q =>
    if q ≤ 0 then .error .valueError
    else (from_timestamp tzOff q).map (fun dt => some (finishIso tzOff dt))
  | .pdatetime dt => .ok (some (finishIso tzOff dt))
  | .pbool _ => .error .typeError
  | .pother _ => .error .typeError

/-- `str()` of the modelled values, as `from_iso_format` applies it to
values that are neither `datetime` nor `str` (rationals are rendered as
`Rat`'s own string; only their non-ISO-parsability matters here). -/
def pyStrV : PyVal → String
  | .pnone => "None"
  | .pbool true => "True"
  | .pbool false => "False"
  | .pint n => toString n
  | .pfloat q => toString q
  | .pstr s => s
  | .pdatetime dt => isoformat dt
  | .pother s => s

/-- `from_iso_format`: parse an ISO string (or pass a datetime through) to
a timezone-aware datetime in the local zone, stamping naive values with
`target_timezone` (default: the local zone); any parse failure falls back
to the current time `now`. -/
def from_iso_format (tzOff : Int) (now : PyDatetime) (target : Option Int)
    (create_time : PyVal) : PyDatetime :=
  let parsed : Option PyDatetime :=
    match create_time with
    | .pdatetime dt => some dt
    | .pstr s => fromisoformat (zReplace s)
    | v => fromisoformat (zReplace (pyStrV v))
  match parsed with
  | none => now
  | some dt =>
    let dt1 := if dt.offUs = none then replaceTz dt (target.getD tzOff) else dt
    astimezone tzOff dt1 tzOff

/-- Truncation toward zero, Python's `int()` on a float. -/
def truncQ (q : ℚ) : Int :=
  if 0 ≤ q then ⌊q⌋ else ⌈q⌉

/-- `to_timestamp_ms`: `int(dt.timestamp() * 1000)`; a naive datetime's
`timestamp()` assumes the system-local zone, modelled as `tzOff`. -/
def to_timestamp_ms (tzOff : Int) (dt : PyDatetime) : Int :=
  Int.tdiv (dt.wallUs - dt.offUs.getD tzOff) 1000

/-- Outcome of Python's `float(s)`: a finite rational, a non-finite float
(`inf`/`nan`), or a `ValueError`. -/
inductive FloatParse where
  | finite (q : ℚ)
  | nonfinite
  | fail
deriving DecidableEq, Repr

/-- Parse an unsigned decimal literal `digits[.digits][e[±]digits]`. -/
def parseDecimal (cs : List Char) : Option ℚ :=
  match digitsAux cs 0 0 with
  | (ip, ni, r1) =>
    let fparsed :=
      match r1 with
      | '.' :: r => digitsAux r 0 0
      | _ => (0, 0, r1)
    match fparsed with
    | (fp, nf, r2) =>
      if ni = 0 ∧ nf = 0 then none
      else
        let mant : ℚ := (ip : ℚ) + (fp : ℚ) / ((10 : ℚ) ^ nf)
        match r2 with
        | [] => some mant
        | e :: r3 =>
          if e == 'e' || e == 'E' then
            let signed :=
              match r3 with
              | '+' :: rr => ((1 : Int), rr)
              | '-' :: rr => ((-1 : Int), rr)
              | rr => ((1 : Int), rr)
            match digitsAux signed.2 0 0 with
            | (ev, ne, r4) =>
              if ne = 0 ∨ r4 ≠ [] then none
              else some (mant * (10 : ℚ) ^ (signed.1 * (ev : Int)))
          else none

/-- Strip leading and trailing whitespace from a character list. -/
def trimChars (cs : List Char) : List Char :=
  ((cs.dropWhile Char.isWhitespace).reverse.dropWhile Char.isWhitespace).reverse

/-- Model of Python's `float(s)` over plain decimal literals (whitespace
trimmed, optional sign, `inf`/`infinity`/`nan` case-insensitive). -/
def pyFloatOfString (s : String) : FloatParse :=
  let t := trimChars s.toList
  let signed :=
    match t with
    | '+' :: r => ((1 : Int), r)
    | '-' :: r => ((-1 : Int), r)
    | r => ((1 : Int), r)
  let low := signed.2.map Char.toLower
  if low = "inf".toList ∨ low = "infinity".toList ∨ low = "nan".toList then
    .nonfinite
  else
    match parseDecimal signed.2 with
    | some q => .finite ((signed.1 : ℚ) * q)
    | none => .fail

/-- The body of `to_timestamp_ms_universal` before its blanket
`except Exception: return 0`: numeric auto-detection (`≥ 1e12` is already
milliseconds), strings tried as numbers first and as ISO datetimes second,
any other object via `str()`; `int()` of a non-finite float raises. -/
def to_timestamp_ms_universal_core (tzOff : Int) (now : PyDatetime)
    (time_value : PyVal) : Except PyErr Int :=
  match time_value with
  | .pnone => .ok 0
  | .pbool b => .ok (if b then (1 : Int) * 1000 else 0)
  | .pint n => if (1000000000000 : Int) ≤ n then .ok n else .ok (n * 1000)
  | .pfloat q =>
    if (1000000000000 : ℚ) ≤ q then .ok (truncQ q) else .ok (truncQ (q * 1000))
  | .pstr s =>
    match pyFloatOfString s with
    | .finite q =>
      if (1000000000000 : ℚ) ≤ q then .ok (truncQ q) else .ok (truncQ (q * 1000))
    | .nonfinite => .error .overflowError
    | .fail => .ok (to_timestamp_ms tzOff (from_iso_format tzOff now none (.pstr s)))
  | .pdatetime dt => .ok (to_timestamp_ms tzOff dt)
  | .pother s =>
    match pyFloatOfString s with
    | .finite q =>
      if (1000000000000 : ℚ) ≤ q then .ok (truncQ q) else .ok (truncQ (q * 1000))
    | .nonfinite => .error .overflowError
    | .fail => .ok (to_timestamp_ms tzOff (from_iso_format tzOff now none (.pstr s)))

/-- `to_timestamp_ms_universal`: the core conversion with every exception
swallowed into `0`. -/
def to_timestamp_ms_universal (tzOff : Int) (now : PyDatetime)
    (time_value : PyVal) : Int :=
  match to_timestamp_ms_universal_core tzOff now time_value with
  | .ok n => n
  | .error _ => 0

/-- C7 (amended): `to_iso_format` returns `None` for `None` and the empty
string; raises `ValueError` for non-positive ints and floats and for every
non-empty string that does not parse as an ISO datetime; raises
`TypeError` for any value whose exact type is unsupported (including
`bool`); positive numbers go through the timestamp conversion; and a
datetime is rendered in the local timezone, a naive one being interpreted
as already carrying the local timezone. -/
theorem to_iso_format_dispatch (tzOff : Int) (n m : Int) (q : ℚ) (b : Bool)
    (s os : String) (dt : PyDatetime)
    (hn : n ≤ 0) (hq : q ≤ 0) (hm : 0 < m) (hs1 : s ≠ "")
    (hs2 : fromisoformat (zReplace s) = none) :
    to_iso_format tzOff .pnone = .ok none ∧
    to_iso_format tzOff (.pstr "") = .ok none ∧
    to_iso_format tzOff (.pint n) = .error .valueError ∧
    to_iso_format tzOff (.pfloat q) = .error .valueError ∧
    to_iso_format tzOff (.pbool b) = .error .typeError ∧
    to_iso_format tzOff (.pother os) = .error .typeError ∧
    to_iso_format tzOff (.pstr s) = .error .valueError ∧
    to_iso_format tzOff (.pint m)
      = (from_timestamp tzOff (m : ℚ)).map (fun d => some (finishIso tzOff d)) ∧
    (dt.offUs = none →
      to_iso_format tzOff (.pdatetime dt)
        = .ok (some (isoformat ⟨dt.wallUs, some tzOff⟩))) ∧
    (∀ o, dt.offUs = some o →
      to_iso_format tzOff (.pdatetime dt)
        = .ok (some (isoformat ⟨dt.wallUs - o + tzOff, some tzOff⟩))) := by
  refine ⟨rfl, rfl, ?_, ?_, rfl, rfl, ?_, ?_, ?_, ?_⟩
  · simp [to_iso_format, hn]
  · simp [to_iso_format, hq]
  · simp [to_iso_format, hs1, hs2]
  · simp [to_iso_format, not_le.mpr hm]
  · intro h
    simp [to_iso_format, finishIso, replaceTz, astimezone, h]
  · intro o h
    simp [to_iso_format, finishIso, replaceTz, astimezone, h]

/-- C7 witness: concrete values discharging every hypothesis. -/
theorem to_iso_format_dispatch_witness :
    ((-5 : Int) ≤ 0) ∧ ((-1 : ℚ) ≤ 0) ∧ ((0 : Int) < 3) ∧
    ("abc" : String) ≠ "" ∧ fromisoformat (zReplace "abc") = none ∧
    to_iso_format 28800000000 .pnone = .ok none :=
  ⟨by decide, by norm_num, by decide, by decide, rfl,
   (to_iso_format_dispatch 28800000000 (-5) 3 (-1) true "abc" "x" ⟨0, none⟩
     (by decide) (by norm_num) (by decide) (by decide) rfl).1⟩

/-- C7 counterexample: the non-empty string `"abc"` is of a supported type
yet `to_iso_format` raises `ValueError` on it rather than returning an
ISO string, so `ValueError` is not confined to non-positive numbers. -/
theorem to_iso_format_dispatch_cex :
    ("abc" : String) ≠ "" ∧
    to_iso_format 28800000000 (.pstr "abc") = .error .valueError :=
  ⟨by decide, rfl⟩

/-- C10 (amended): `to_timestamp_ms_universal` always returns an integer —
`0` for `None` and whenever the conversion raises; numbers at or above
`1e12` are kept as milliseconds (floats truncated by `int()`), numbers
below `1e12` are treated as seconds and multiplied by 1000; strings are
first tried as numbers and only then parsed as ISO datetimes, where a
string parsing as neither yields the millisecond timestamp of the current
time through `from_iso_format`'s fallback rather than `0`; any other
object is converted via `str()` first. -/
theorem to_timestamp_ms_universal_cases (tzOff : Int) (now : PyDatetime)
    (n : Int) (q : ℚ) (dt : PyDatetime) (s : String) :
    to_timestamp_ms_universal tzOff now .pnone = 0 ∧
    ((1000000000000 : Int) ≤ n →
      to_timestamp_ms_universal tzOff now (.pint n) = n) ∧
    (n < 1000000000000 →
      to_timestamp_ms_universal tzOff now (.pint n) = n * 1000) ∧
    ((1000000000000 : ℚ) ≤ q →
      to_timestamp_ms_universal tzOff now (.pfloat q) = truncQ q) ∧
    (q < 1000000000000 →
      to_timestamp_ms_universal tzOff now (.pfloat q) = truncQ (q * 1000)) ∧
    (∀ q0, pyFloatOfString s = .finite q0 →
      to_timestamp_ms_universal tzOff now (.pstr s)
        = to_timestamp_ms_universal tzOff now (.pfloat q0)) ∧
    (pyFloatOfString s = .fail →
      to_timestamp_ms_universal tzOff now (.pstr s)
        = to_timestamp_ms tzOff (from_iso_format tzOff now none (.pstr s))) ∧
    (to_timestamp_ms_universal tzOff now (.pother s)
        = to_timestamp_ms_universal tzOff now (.pstr s)) ∧
    (to_timestamp_ms_universal tzOff now (.pdatetime dt)
        = to_timestamp_ms tzOff dt) ∧
    (∀ v : PyVal, ∀ e : PyErr,
      to_timestamp_ms_universal_core tzOff now v = .error e →
      to_timestamp_ms_universal tzOff now v = 0) := by
  refine ⟨rfl, ?_, ?_, ?_, ?_, ?_, ?_, rfl, rfl, ?_⟩
  · intro h
    simp [to_timestamp_ms_universal, to_timestamp_ms_universal_core, h]
  · intro h
    simp [to_timestamp_ms_universal, to_timestamp_ms_universal_core, not_le.mpr h]
  · intro h
    simp [to_timestamp_ms_universal, to_timestamp_ms_universal_core, h]
  · intro h
    simp [to_timestamp_ms_universal, to_timestamp_ms_universal_core, not_le.mpr h]
  · intro q0 h
    simp [to_timestamp_ms_universal, to_timestamp_ms_universal_core, h]
  · intro h
    simp [to_timestamp_ms_universal, to_timestamp_ms_universal_core, h]
  · intro v e h
    simp [to_timestamp_ms_universal, h]

/-- C10 witness: a millisecond-scale integer is returned unchanged. -/
theorem to_timestamp_ms_universal_cases_witness :
    (1000000000000 : Int) ≤ 2000000000000 ∧
    to_timestamp_ms_universal 28800000000 ⟨28800000000, some 28800000000⟩
      (.pint 2000000000000) = 2000000000000 :=
  ⟨by decide,
   (to_timestamp_ms_universal_cases 28800000000 ⟨28800000000, some 28800000000⟩
     2000000000000 0 ⟨0, none⟩ "x").2.1 (by decide)⟩

/-- C10 counterexample: a string that converts as neither a number nor an
ISO datetime does not yield `0`; it yields the current time's millisecond
timestamp through `from_iso_format`'s fallback. -/
theorem to_timestamp_ms_universal_fallback_cex :
    pyFloatOfString "not-a-date" = .fail ∧
    fromisoformat (zReplace "not-a-date") = none ∧
    to_timestamp_ms_universal 28800000000
      ⟨1700000000000000 + 28800000000, some 28800000000⟩
      (.pstr "not-a-date") = 1700000000000 ∧
    (1700000000000 : Int) ≠ 0 :=
  ⟨by decide, rfl, rfl, by decide⟩

end DatetimeUtils

/-!
## `infra_layer/adapters/out/event/memory_request_log_mongo_listener.py`

`urllib.parse.urlparse` / `parse_qs` are modelled over the URL shapes the
listener receives (`scheme://netloc/path?query#fragment` or a relative
`path?query#fragment`), including `+`-to-space and `%XX` percent
decoding of single bytes.  `json.loads` is external; an event carries the
already-parsed body as `Option PyJson` (`none` models an empty or
unparseable body, exactly `_parse_body`'s result).  The external
`extract_message_core_fields` helper is an opaque total function
parameter; the persisted `MemoryRequestLog` is restricted to the three
claim-relevant fields, and "persisting" means handing a record to
`repository.save`, so `on_event` returns the record it saves (or `none`).
`AttributeError` from calling `.get` on a truthy non-dict parsed body is
modelled by `Except Unit` in the extraction helpers. -/

namespace MemoryRequestLogListener

/-- A parsed JSON value (numbers restricted to integers). -/
inductive PyJson where
  | jnull
  | jbool (b : Bool)
  | jnum (n : Int)
  | jstr (s : String)
  | jarr (xs : List PyJson)
  | jobj (fields : List (String × PyJson))

/-- Python truthiness of a parsed JSON value. -/
def jTruthy : PyJson → Bool
  | .jnull => false
  | .jbool b => b
  | .jnum n => n != 0
  | .jstr s => s != ""
  | .jarr xs => !xs.isEmpty
  | .jobj fs => !fs.isEmpty

/-- `str()` of a parsed JSON value (containers rendered opaquely; only
scalar renderings are ever compared in the claims). -/
def pyStrJ : PyJson → String
  | .jnull => "None"
  | .jbool true => "True"
  | .jbool false => "False"
  | .jnum n => toString n
  | .jstr s => s
  | .jarr _ => "[...]"
  | .jobj _ => "\x7b...\x7d"

/-- `dict.get` on a parsed JSON object. -/
def jGet (fields : List (String × PyJson)) (k : String) : Option PyJson :=
  (fields.find? (fun p => p.1 == k)).map (fun p => p.2)

/-- Split a character list at the first occurrence of a separator. -/
def splitFirstChar (c : Char) : List Char → Option (List Char × List Char)
  | [] => none
  | x :: r =>
    if x = c then some ([], r)
    else
      match splitFirstChar c r with
      | none => none
      | some (a, b) => some (x :: a, b)

/-- Hexadecimal digit value. -/
def hexVal (c : Char) : Option Nat :=
  if c.isDigit then some (c.toNat - 48)
  else if 'a' ≤ c ∧ c ≤ 'f' then some (c.toNat - 87)
  else if 'A' ≤ c ∧ c ≤ 'F' then some (c.toNat - 55)
  else none

/-- Percent-decode (`unquote`), single-byte escapes; malformed escapes are
left as-is, as `urllib` does. -/
def unquoteChars : List Char → List Char
  | [] => []
  | '%' :: a :: b :: r =>
    match hexVal a, hexVal b with
    | some x, some y => Char.ofNat (16 * x + y) :: unquoteChars r
    | _, _ => '%' :: unquoteChars (a :: b :: r)
  | c :: r => c :: unquoteChars r

/-- `unquote_plus`: `+` to space, then percent-decoding. -/
def unquotePlus (cs : List Char) : List Char :=
  unquoteChars (cs.map (fun c => if c = '+' then ' ' else c))

/-- Split a character list on every occurrence of a separator. -/
def splitOnChar (c : Char) : List Char → List (List Char)
  | [] => [[]]
  | x :: r =>
    if x = c then [] :: splitOnChar c r
    else
      match splitOnChar c r with
      | [] => [[x]]
      | g :: gs => (x :: g) :: gs

/-- Model of `urllib.parse.parse_qsl` with default arguments: fields split
on `&`, fields without `=` or with an empty value skipped, names and
values unquoted. -/
def parseQsl (q : String) : List (String × String) :=
  (splitOnChar '&' q.toList).filterMap (fun field =>
    match splitFirstChar '=' field with
    | none => none
    | some (n, v) =>
      if v = [] then none
      else some (⟨unquotePlus n⟩, ⟨unquotePlus v⟩))

/-- `parse_qs(q).get(k)[0]`: the first value listed for a key. -/
def qsFirst (q : String) (k : String) : Option String :=
  ((parseQsl q).filterMap (fun p => if p.1 = k then some p.2 else none)).head?

/-- Drop the fragment part of a URL (everything from the first `#`). -/
def dropFragment (cs : List Char) : List Char :=
  match splitFirstChar '#' cs with
  | none => cs
  | some (a, _) => a

/-- Split a defragmented URL into its pre-query part and its query. -/
def splitQuery (cs : List Char) : List Char × List Char :=
  match splitFirstChar '?' cs with
  | none => (cs, [])
  | some (a, b) => (a, b)

/-- Is this a valid URL scheme (letter first, then letters, digits,
`+`/`-`/`.`), as `urlparse` requires before it splits one off? -/
def schemeOk (cs : List Char) : Bool :=
  match cs with
  | [] => false
  | c :: r => c.isAlpha && r.all (fun x => x.isAlphanum || x = '+' || x = '-' || x = '.')

/-- Drop a leading `//netloc`, keeping the path from its first `/`. -/
def dropNetloc (cs : List Char) : List Char :=
  cs.dropWhile (fun c => c ≠ '/')

/-- Model of `urlparse(url).path` for the URL shapes above. -/
def urlPath (url : String) : String :=
  let base := (splitQuery (dropFragment url.toList)).1
  let afterScheme :=
    match splitFirstChar ':' base with
    | some (sch, rest) => if schemeOk sch then rest else base
    | none => base
  match afterScheme with
  | '/' :: '/' :: netlocAndPath => ⟨dropNetloc netlocAndPath⟩
  | p => ⟨p⟩

/-- Model of `urlparse(url).query`. -/
def urlQuery (url : String) : String :=
  ⟨(splitQuery (dropFragment url.toList)).2⟩

/-- Character-list version of `str.startswith`. -/
def startsWithChars : List Char → List Char → Bool
  | _, [] => true
  | [], _ :: _ => false
  | c :: r, p :: ps => c == p && startsWithChars r ps

/-- `_is_memories_request`: does the URL path start with
`/api/v1/memories` (the module's `MEMORIES_PATH_PREFIX` constant)? -/
def is_memories_request (url : String) : Bool :=
  startsWithChars (urlPath url).toList "/api/v1/memories".toList

/-- `body_parsed.get(k)` followed by the code's truthiness test. -/
def bodyTruthyGet (fields : List (String × PyJson)) (k : String) :
    Option PyJson :=
  match jGet fields k with
  | some v => if jTruthy v then some v else none
  | none => none

/-- `body_parsed.get("user_id") or body_parsed.get("sender")` under the
code's truthiness test. -/
def bodyUserChoice (fields : List (String × PyJson)) : Option PyJson :=
  match bodyTruthyGet fields "user_id" with
  | some v => some v
  | none => bodyTruthyGet fields "sender"

/-- The body stage shared by `_extract_group_id` and `_extract_user_id`:
nothing from a missing or falsy parsed body, the selected truthy field of
a JSON-object body stringified, and an `AttributeError` (`.error ()`)
when `.get` is called on a truthy non-dict body. -/
def bodyExtract (body_parsed : Option PyJson)
    (select : List (String × PyJson) → Option PyJson) :
    Except Unit (Option String) :=
  match body_parsed with
  | some bj =>
    if jTruthy bj then
      match bj with
      | .jobj fields => .ok ((select fields).map pyStrJ)
      | _ => .error ()
    else .ok none
  | none => .ok none

/-- `_extract_group_id`: the body's `group_id` when the parsed body is
truthy and holds one truthy, else the first `group_id` query parameter;
calling `.get` on a truthy non-dict body raises (`Except.error`). -/
def extract_group_id (url : String) (body_parsed : Option PyJson) :
    Except Unit (Option String) :=
  match bodyExtract body_parsed (fun fields => bodyTruthyGet fields "group_id") with
  | .error e => .error e
  | .ok (some g) => .ok (some g)
  | .ok none => .ok (qsFirst (urlQuery url) "group_id")

/-- `headers.get(k1) or headers.get(k2)` on a string-valued dict, with
Python's falsy-empty-string semantics. -/
def headerOr (headers : List (String × String)) (k1 k2 : String) :
    Option String :=
  let get1 := (headers.find? (fun p => p.1 == k1)).map (fun p => p.2)
  match get1 with
  | some s => if s = "" then (headers.find? (fun p => p.1 == k2)).map (fun p => p.2) else some s
  | none => (headers.find? (fun p => p.1 == k2)).map (fun p => p.2)

/-- The query-then-header fall-through of `_extract_user_id` once the body
yields nothing: first `user_id` query parameter, else the non-empty
`X-User-Id` header under either casing. -/
def userFallthrough (url : String) (headers : List (String × String)) :
    Option String :=
  match qsFirst (urlQuery url) "user_id" with
  | some u => some u
  | none =>
    match headerOr headers "X-User-Id" "x-user-id" with
    | some u => if u = "" then none else some u
    | none => none

/-- `_extract_user_id`: body `user_id` or `sender` (truthy), else the first
`user_id` query parameter, else the `X-User-Id` header (either casing,
truthy); a truthy non-dict body raises. -/
def extract_user_id (url : String) (body_parsed : Option PyJson)
    (headers : List (String × String)) : Except Unit (Option String) :=
  match bodyExtract body_parsed bodyUserChoice with
  | .error e => .error e
  | .ok (some u) => .ok (some u)
  | .ok none => .ok (userFallthrough url headers)

/-- `_extract_request_id`: the `X-Request-Id` header, either casing. -/
def extract_request_id (headers : List (String × String)) : Option String :=
  headerOr headers "X-Request-Id" "x-request-id"

/-- The slice of a `RequestHistoryEvent` the listener reads: the URL, the
body as `_parse_body` leaves it, the headers dict, and the event id. -/
structure RequestHistoryEvent where
  url : String
  body_parsed : Option PyJson
  headers : List (String × String)
  event_id : Option String

/-- The claim-relevant fields of the persisted `MemoryRequestLog`. -/
structure MemoryRequestLog where
  group_id : String
  request_id : String
  user_id : Option String
deriving DecidableEq, Repr

/-- `request_id` fallback: header value, else `event.event_id or
"unknown"` with Python falsy semantics. -/
def requestIdOf (headers : List (String × String)) (event_id : Option String) :
    String :=
  match extract_request_id headers with
  | some r =>
    if r = "" then
      match event_id with
      | some e => if e = "" then "unknown" else e
      | none => "unknown"
    else r
  | none =>
    match event_id with
    | some e => if e = "" then "unknown" else e
    | none => "unknown"

/-- `on_event` / `_save_to_mongo`: skip non-memories URLs, extract the
fields, require a truthy `group_id`, and hand a `MemoryRequestLog` to the
repository; any exception inside `_save_to_mongo` (here: `.get` on a
truthy non-dict body) is caught and nothing is saved.  The external
`extract_message_core_fields` is the opaque total `msgFields` (its result
only feeds fields outside the model). -/
def on_event (msgFields : Option PyJson → List (String × PyJson))
    (ev : RequestHistoryEvent) : Option MemoryRequestLog :=
  if !is_memories_request ev.url then none
  else
    match extract_group_id ev.url ev.body_parsed with
    | .error _ => none
    | .ok gid =>
      match extract_user_id ev.url ev.body_parsed ev.headers with
      | .error _ => none
      | .ok uid =>
        let _mf := msgFields ev.body_parsed
        match gid with
        | none => none
        | some g =>
          if g = "" then none
          else some ⟨g, requestIdOf ev.headers ev.event_id, uid⟩

/-- Whether the body stage raises does not depend on the selected field. -/
theorem bodyExtract_ok_shape (body_parsed : Option PyJson)
    (f g : List (String × PyJson) → Option PyJson) (x : Option String)
    (h : bodyExtract body_parsed f = .ok x) :
    ∃ y, bodyExtract body_parsed g = .ok y := by
  cases body_parsed with
  | none => exact ⟨none, rfl⟩
  | some bj =>
    by_cases htr : jTruthy bj = true
    · cases bj with
      | jobj fields => exact ⟨(g fields).map pyStrJ, by simp [bodyExtract, htr]⟩
      | jnull => simp [jTruthy] at htr
      | jbool b => simp [bodyExtract, htr] at h
      | jnum n => simp [bodyExtract, htr] at h
      | jstr s => simp [bodyExtract, htr] at h
      | jarr xs => simp [bodyExtract, htr] at h
    · have htr2 : jTruthy bj = false := by simpa using htr
      exact ⟨none, by simp [bodyExtract, htr2]⟩

/-- `on_event` as one top-level case split. -/
theorem on_event_eq (msgFields : Option PyJson → List (String × PyJson))
    (ev : RequestHistoryEvent) :
    on_event msgFields ev =
      (if is_memories_request ev.url = true then
        match extract_group_id ev.url ev.body_parsed,
              extract_user_id ev.url ev.body_parsed ev.headers with
        | .ok (some g), .ok uid =>
          if g = "" then none
          else some ⟨g, requestIdOf ev.headers ev.event_id, uid⟩
        | _, _ => none
      else none) := by
  cases hm : is_memories_request ev.url with
  | false => simp [on_event, hm]
  | true =>
    cases hg : extract_group_id ev.url ev.body_parsed with
    | error e => simp [on_event, hm, hg]
    | ok gid =>
      cases hu : extract_user_id ev.url ev.body_parsed ev.headers with
      | error e => simp [on_event, hm, hg, hu]
      | ok uid =>
        cases gid with
        | none => simp [on_event, hm, hg, hu]
        | some g => simp [on_event, hm, hg, hu]

/-- C6 (amended): the listener persists a `MemoryRequestLog` exactly when
the URL path starts with `/api/v1/memories` and the group-id extraction
succeeds with a truthy value (body's truthy `group_id` first, else the
first `group_id` query parameter; a truthy non-object parsed body makes
the extraction raise, and the save is skipped).  In the persisted record
`user_id` follows the precedence body (`user_id` then `sender`, truthy)
over the first `user_id` query parameter over the non-empty `X-User-Id`
header, and `request_id` is the non-empty `X-Request-Id` header, else the
event's non-empty `event_id`, else `"unknown"`. -/
theorem on_event_characterisation
    (msgFields : Option PyJson → List (String × PyJson))
    (ev : RequestHistoryEvent) :
    ((on_event msgFields ev).isSome ↔
      (is_memories_request ev.url = true ∧
       ∃ g, extract_group_id ev.url ev.body_parsed = .ok (some g) ∧ g ≠ "")) ∧
    (∀ r, on_event msgFields ev = some r →
      extract_group_id ev.url ev.body_parsed = .ok (some r.group_id) ∧
      extract_user_id ev.url ev.body_parsed ev.headers = .ok r.user_id ∧
      r.request_id = requestIdOf ev.headers ev.event_id) ∧
    (∀ fields v, bodyTruthyGet fields "group_id" = some v →
      extract_group_id ev.url (some (.jobj fields)) = .ok (some (pyStrJ v))) ∧
    (∀ fields, bodyTruthyGet fields "group_id" = none →
      extract_group_id ev.url (some (.jobj fields))
        = .ok (qsFirst (urlQuery ev.url) "group_id")) ∧
    (extract_group_id ev.url none
        = .ok (qsFirst (urlQuery ev.url) "group_id")) ∧
    (∀ fields v, bodyUserChoice fields = some v →
      extract_user_id ev.url (some (.jobj fields)) ev.headers
        = .ok (some (pyStrJ v))) ∧
    (∀ fields, bodyUserChoice fields = none →
      extract_user_id ev.url (some (.jobj fields)) ev.headers
        = .ok (userFallthrough ev.url ev.headers)) ∧
    (extract_user_id ev.url none ev.headers
        = .ok (userFallthrough ev.url ev.headers)) ∧
    (∀ u, qsFirst (urlQuery ev.url) "user_id" = some u →
      userFallthrough ev.url ev.headers = some u) ∧
    (∀ r, extract_request_id ev.headers = some r → r ≠ "" →
      requestIdOf ev.headers ev.event_id = r) ∧
    (∀ e, (extract_request_id ev.headers = none ∨
        extract_request_id ev.headers = some "") →
      ev.event_id = some e → e ≠ "" →
      requestIdOf ev.headers ev.event_id = e) ∧
    ((extract_request_id ev.headers = none ∨
        extract_request_id ev.headers = some "") →
      (ev.event_id = none ∨ ev.event_id = some "") →
      requestIdOf ev.headers ev.event_id = "unknown") := by
  refine ⟨?_, ?_, ?_, ?_, rfl, ?_, ?_, rfl, ?_, ?_, ?_, ?_⟩
  · rw [on_event_eq]
    constructor
    · intro hsome
      by_cases hm : is_memories_request ev.url = true
      · refine ⟨hm, ?_⟩
        rw [if_pos hm] at hsome
        cases hg : extract_group_id ev.url ev.body_parsed with
        | error e => rw [hg] at hsome; revert hsome
                     cases extract_user_id ev.url ev.body_parsed ev.headers <;> simp
        | ok gid =>
          cases hu : extract_user_id ev.url ev.body_parsed ev.headers with
          | error e => rw [hg, hu] at hsome; revert hsome; cases gid <;> simp
          | ok uid =>
            rw [hg, hu] at hsome
            cases gid with
            | none => simp at hsome
            | some g =>
              by_cases hge : g = ""
              · simp [hge] at hsome
              · exact ⟨g, rfl, hge⟩
      · rw [if_neg hm] at hsome; simp at hsome
    · rintro ⟨hm, g, hg, hge⟩
      rw [if_pos hm, hg]
      have hex : ∃ x, bodyExtract ev.body_parsed
          (fun fields => bodyTruthyGet fields "group_id") = .ok x := by
        revert hg
        unfold extract_group_id
        cases hb : bodyExtract ev.body_parsed
            (fun fields => bodyTruthyGet fields "group_id") with
        | error e => simp
        | ok x => intro _; exact ⟨x, rfl⟩
      obtain ⟨x, hx⟩ := hex
      obtain ⟨y, hy⟩ := bodyExtract_ok_shape ev.body_parsed _ bodyUserChoice x hx
      have hu : ∃ uid, extract_user_id ev.url ev.body_parsed ev.headers
          = .ok uid := by
        unfold extract_user_id
        rw [hy]
        cases y <;> exact ⟨_, rfl⟩
      obtain ⟨uid, hu⟩ := hu
      rw [hu]
      simp [hge]
  · intro r hr
    rw [on_event_eq] at hr
    by_cases hm : is_memories_request ev.url = true
    · rw [if_pos hm] at hr
      cases hg : extract_group_id ev.url ev.body_parsed with
      | error e => rw [hg] at hr; revert hr
                   cases extract_user_id ev.url ev.body_parsed ev.headers <;> simp
      | ok gid =>
        cases hu : extract_user_id ev.url ev.body_parsed ev.headers with
        | error e => rw [hg, hu] at hr; revert hr; cases gid <;> simp
        | ok uid =>
          rw [hg, hu] at hr
          cases gid with
          | none => simp at hr
          | some g =>
            by_cases hge : g = ""
            · simp [hge] at hr
            · simp only [hge, if_false, reduceCtorEq] at hr
              rw [Option.some_inj] at hr
              subst hr
              exact ⟨rfl, rfl, rfl⟩
    · rw [if_neg hm] at hr; simp at hr
  · intro fields v hv
    by_cases htr : jTruthy (PyJson.jobj fields) = true
    · simp [extract_group_id, bodyExtract, htr, hv]
    · exfalso
      have hemp : fields.isEmpty = true := by
        simpa [jTruthy] using htr
      rw [List.isEmpty_iff] at hemp
      subst hemp
      simp [bodyTruthyGet, jGet] at hv
  · intro fields hv
    by_cases htr : jTruthy (PyJson.jobj fields) = true
    · simp [extract_group_id, bodyExtract, htr, hv]
    · have htr2 : jTruthy (PyJson.jobj fields) = false := by simpa using htr
      simp [extract_group_id, bodyExtract, htr2]
  · intro fields v hv
    by_cases htr : jTruthy (PyJson.jobj fields) = true
    · simp [extract_user_id, bodyExtract, htr, hv]
    · exfalso
      have hemp : fields.isEmpty = true := by
        simpa [jTruthy] using htr
      rw [List.isEmpty_iff] at hemp
      subst hemp
      simp [bodyUserChoice, bodyTruthyGet, jGet] at hv
  · intro fields hv
    by_cases htr : jTruthy (PyJson.jobj fields) = true
    · simp [extract_user_id, bodyExtract, htr, hv]
    · have htr2 : jTruthy (PyJson.jobj fields) = false := by simpa using htr
      simp [extract_user_id, bodyExtract, htr2]
  · intro u hu
    simp [userFallthrough, hu]
  · intro r hrr hne
    simp [requestIdOf, extract_request_id] at hrr ⊢
    rw [hrr]
    simp [hne]
  · intro e hrr he hne
    rcases hrr with h | h <;>
      simp [requestIdOf, extract_request_id] at h ⊢ <;>
      rw [h] <;> simp [he, hne]
  · intro hrr hei
    rcases hrr with h | h <;> rcases hei with h2 | h2 <;>
      simp [requestIdOf, extract_request_id] at h ⊢ <;>
      rw [h, h2] <;> simp

/-- C6 witness: a concrete persisted event, with the group id coming from
the query string and the request id from the header. -/
theorem on_event_characterisation_witness :
    on_event (fun _ => [])
      ⟨"/api/v1/memories?group_id=g7", none, [("X-Request-Id", "r1")],
        some "e1"⟩ = some ⟨"g7", "r1", none⟩ ∧
    extract_group_id "/api/v1/memories?group_id=g7" none = .ok (some "g7") :=
  ⟨rfl,
   ((on_event_characterisation (fun _ => [])
      ⟨"/api/v1/memories?group_id=g7", none, [("X-Request-Id", "r1")],
        some "e1"⟩).2.1 ⟨"g7", "r1", none⟩ rfl).1⟩

/-- C6 counterexample: with URL `/api/v1/memories?group_id=g7` and the
parsed body `[1]` (truthy, not an object), the query string carries an
extractable `group_id` yet nothing is persisted: `.get` on the list raises
and `_save_to_mongo` swallows the error. -/
theorem on_event_nondict_body_cex :
    is_memories_request "/api/v1/memories?group_id=g7" = true ∧
    qsFirst (urlQuery "/api/v1/memories?group_id=g7") "group_id" = some "g7" ∧
    on_event (fun _ => [])
      ⟨"/api/v1/memories?group_id=g7", some (.jarr [.jnum 1]), [],
        some "e1"⟩ = none :=
  ⟨rfl, rfl, rfl⟩

end MemoryRequestLogListener

/-!
## `service/memcell_delete_service.py`

The repository and the `MemCell` store behind the service are external
collaborators, modelled as the outcome (or outcome function) they return:
a raised exception is `Except.error` with an arbitrary payload type.
`MAGIC_ALL` lives in `core/oxm/constants`, outside this repository's
sources; its value is irrelevant here, so it is a parameter.  `bson`'s
`ObjectId(str)` accepts exactly a 24-character hexadecimal string. -/

namespace MemCellDeleteService

/-- The slice of a pymongo `UpdateResult` the service reads. -/
structure UpdateRes where
  modified_count : Int
deriving DecidableEq, Repr

/-- The result dictionary of `delete_by_combined_criteria`. -/
structure CombinedResult where
  filters : List String
  count : Int
  success : Bool
  err : Option String
deriving DecidableEq, Repr

/-- Validity of a string for `bson.ObjectId`: 24 hex characters. -/
def objectIdValid (s : String) : Bool :=
  s.toList.length == 24 &&
    s.toList.all (fun c => (MemoryRequestLogListener.hexVal c).isSome)

/-- `delete_by_event_id`: delegate to the repository, log, and re-raise any
exception unchanged. -/
def delete_by_event_id {ε : Type} (repoResult : Except ε Bool) :
    Except ε Bool :=
  match repoResult with
  | .ok result => .ok result
  | .error e => .error e

/-- `delete_by_user_id`: delegate to the repository, log, and re-raise any
exception unchanged. -/
def delete_by_user_id {ε : Type} (repoResult : Except ε Int) :
    Except ε Int :=
  match repoResult with
  | .ok count => .ok count
  | .error e => .error e

/-- `delete_by_group_id`: `MemCell.delete_many({"group_id": ...})`, counting
modified documents; any exception is logged and re-raised unchanged. -/
def delete_by_group_id {ε : Type} (storeResult : Except ε UpdateRes) :
    Except ε Int :=
  match storeResult with
  | .ok result => .ok result.modified_count
  | .error e => .error e

/-- Is this optional argument an active filter value (truthy and not the
`MAGIC_ALL` sentinel)? -/
def activeArg (magicAll : String) : Option String → Bool
  | some s => s != "" && s != magicAll
  | none => false

/-- `delete_by_combined_criteria`: build the conjunction filter from the
active arguments (event_id as an ObjectId, invalid ones reported in the
result dictionary rather than raised), refuse an empty filter, then bulk
soft delete through the store; a store exception is logged and re-raised
unchanged. -/
def delete_by_combined_criteria {ε : Type} (magicAll : String)
    (event_id user_id group_id : Option String)
    (store : List (String × MVal) → Except ε UpdateRes) :
    Except ε CombinedResult :=
  if activeArg magicAll event_id && !objectIdValid (event_id.getD "") then
    .ok ⟨[], 0, false, some ("Invalid event_id format: " ++ event_id.getD "")⟩
  else
    let fd0 : List (String × MVal) :=
      if activeArg magicAll event_id then [("_id", .moid (event_id.getD ""))]
      else []
    let fl0 : List String :=
      if activeArg magicAll event_id then ["event_id"] else []
    let fd1 := fd0 ++
      (if activeArg magicAll user_id then [("user_id", .mstr (user_id.getD ""))]
       else [])
    let fl1 := fl0 ++ (if activeArg magicAll user_id then ["user_id"] else [])
    let fd2 := fd1 ++
      (if activeArg magicAll group_id then
        [("group_id", .mstr (group_id.getD ""))]
       else [])
    let fl2 := fl1 ++ (if activeArg magicAll group_id then ["group_id"] else [])
    if fd2 = [] then
      .ok ⟨[], 0, false, some "No deletion criteria provided"⟩
    else
      match store fd2 with
      | .ok result =>
        .ok ⟨fl2, result.modified_count,
          if 0 < result.modified_count then true else false, none⟩
      | .error e => .error e

/-- C8: each deletion method re-raises a repository/store exception
unchanged — never swallowed, never converted into a return value — and
delegates the successful result unchanged too. -/
theorem delete_service_reraises {ε : Type} (e : ε) (magicAll u : String)
    (hu1 : u ≠ "") (hu2 : u ≠ magicAll) :
    delete_by_event_id (Except.error e : Except ε Bool) = .error e ∧
    delete_by_user_id (Except.error e : Except ε Int) = .error e ∧
    delete_by_group_id (Except.error e : Except ε UpdateRes) = .error e ∧
    delete_by_combined_criteria magicAll none (some u) none
      (fun _ => (Except.error e : Except ε UpdateRes)) = .error e ∧
    (∀ b : Bool, delete_by_event_id (Except.ok b : Except ε Bool) = .ok b) ∧
    (∀ n : Int, delete_by_user_id (Except.ok n : Except ε Int) = .ok n) ∧
    (∀ r : UpdateRes,
      delete_by_group_id (Except.ok r : Except ε UpdateRes)
        = .ok r.modified_count) := by
  have hact : activeArg magicAll (some u) = true := by
    simp [activeArg, hu1, hu2]
  have hactn : activeArg magicAll none = false := rfl
  refine ⟨rfl, rfl, rfl, ?_, fun b => rfl, fun n => rfl, fun r => rfl⟩
  simp [delete_by_combined_criteria, hact, hactn]

/-- C8 witness: a concrete error payload and user filter. -/
theorem delete_service_reraises_witness :
    ("user-1" : String) ≠ "" ∧ ("user-1" : String) ≠ "__ALL__" ∧
    delete_by_event_id (Except.error 7 : Except Nat Bool) = .error 7 :=
  ⟨by decide, by decide,
   (delete_service_reraises (ε := Nat) 7 "__ALL__" "user-1" (by decide)
     (by decide)).1⟩

end MemCellDeleteService

end EverMem
